import Mathlib

/-!
Verification of the Case Team Event Generator's core logic, shallowly
embedded from `src/src/App.tsx`.

Modelling conventions:
* JavaScript numbers reached through `Number(...)` are modelled as
  `Option ℚ`: `some q` is a finite numeric value, `none` is `NaN`
  (the result of coercing a non-numeric field).  Every comparison with
  `NaN` is false in JavaScript, which `numGe`/`numLe` reproduce.
* JavaScript strings are Lean `String`s; `hay.includes(needle)` is
  `jsIncludes hay needle`, `toLowerCase` is `jsToLower`.
* React state updates are modelled as explicit state passing; the
  persistence collaborator (`blink.db`) is modelled as an in-memory
  list of records, and each call that writes to it is recorded as a
  `DbWrite` so side effects can be counted.
-/

/-- Character-list version of JavaScript `String.prototype.startsWith`. -/
def startsWithL : List Char → List Char → Bool
  | _, [] => true
  | [], _ :: _ => false
  | a :: as, b :: bs => a == b && startsWithL as bs

/-- Character-list version of JavaScript `String.prototype.includes`:
`includesL hay needle` is true when `needle` occurs contiguously in `hay`. -/
def includesL : List Char → List Char → Bool
  | [], needle => needle.isEmpty
  | a :: t, needle => startsWithL (a :: t) needle || includesL t needle

/-- JavaScript `hay.includes(needle)` on strings. -/
def jsIncludes (hay needle : String) : Bool :=
  includesL hay.data needle.data

/-- JavaScript `toLowerCase`, character by character.  `Char.toLower`
lowers ASCII letters, which covers every string this catalog holds. -/
def jsToLower (s : String) : String :=
  String.mk (s.data.map Char.toLower)

/-- JavaScript `>=` against a possibly-NaN left operand: `x >= b`.
`none` models `NaN`, for which every comparison is false. -/
def numGe (x : Option ℚ) (b : ℚ) : Bool :=
  match x with
  | some q => b ≤ q
  | none => false

/-- JavaScript `<=` against a possibly-NaN left operand: `x <= b`. -/
def numLe (x : Option ℚ) (b : ℚ) : Bool :=
  match x with
  | some q => q ≤ b
  | none => false

/-- The normalized `Event` record of `App.tsx` (the `Event` interface,
lines 15–30).  `durationHours` and `costPerPerson` hold the value the
filter obtains via `Number(...)`: `some q` when the stored field is
numeric (or a numeric string), `none` when coercion yields `NaN`. -/
structure Event where
  id : String
  name : String
  category : String
  description : String
  city : String
  idealGroupSize : String
  durationHours : Option ℚ
  costPerPerson : Option ℚ
  meetingPoint : String
  transitTips : Option String
  bookingLink : Option String
  bestMonths : String
  accessibilityNotes : Option String
  imageUrl : String
deriving DecidableEq

/-- The session's filter state (`App.tsx` lines 52, 60–62):
`searchQuery`, `selectedCategories`, `costRange = [min, max]`,
`durationRange = [min, max]`. -/
structure FilterState where
  searchQuery : String
  selectedCategories : List String
  costRange : ℚ × ℚ
  durationRange : ℚ × ℚ
deriving DecidableEq

/-- The search predicate of the text filter (`App.tsx` lines 129–133):
the lowercased query is a substring of the lowercased name,
description, or category. -/
def searchPass (q : String) (e : Event) : Bool :=
  jsIncludes (jsToLower e.name) (jsToLower q) ||
  jsIncludes (jsToLower e.description) (jsToLower q) ||
  jsIncludes (jsToLower e.category) (jsToLower q)

/-- The category predicate (`App.tsx` lines 140–142):
`selectedCategories.includes(event.category)`. -/
def categoryPass (cats : List String) (e : Event) : Bool :=
  cats.contains e.category

/-- The cost predicate (`App.tsx` lines 148–155):
`cost >= costRange[0] && cost <= costRange[1]` after `Number(...)`. -/
def costPass (lo hi : ℚ) (e : Event) : Bool :=
  numGe e.costPerPerson lo && numLe e.costPerPerson hi

/-- The duration predicate (`App.tsx` lines 160–167):
`duration >= durationRange[0] && duration <= durationRange[1]`. -/
def durationPass (lo hi : ℚ) (e : Event) : Bool :=
  numGe e.durationHours lo && numLe e.durationHours hi

/-- The filter engine `filterEvents` (`App.tsx` lines 121–172): the
search filter runs only when `searchQuery` is truthy (non-empty), the
category filter only when `selectedCategories.length > 0`, and the
cost and duration filters always run, in that order. -/
def filterEvents (events : List Event) (fs : FilterState) : List Event :=
  let f1 := if fs.searchQuery = "" then events
            else events.filter (searchPass fs.searchQuery)
  let f2 := if fs.selectedCategories.length > 0 then
              f1.filter (categoryPass fs.selectedCategories)
            else f1
  let f3 := f2.filter (costPass fs.costRange.1 fs.costRange.2)
  f3.filter (durationPass fs.durationRange.1 fs.durationRange.2)

/-- Membership in the engine's output, characterized dimension by
dimension.  Each stage is `List.filter`, so an event is visible iff it
is in the catalog and passes every active predicate. -/
theorem mem_filterEvents {events : List Event} {fs : FilterState} {e : Event} :
    e ∈ filterEvents events fs ↔
      e ∈ events ∧
      (fs.searchQuery = "" ∨ searchPass fs.searchQuery e = true) ∧
      (fs.selectedCategories = [] ∨ categoryPass fs.selectedCategories e = true) ∧
      costPass fs.costRange.1 fs.costRange.2 e = true ∧
      durationPass fs.durationRange.1 fs.durationRange.2 e = true := by
  unfold filterEvents
  by_cases hq : fs.searchQuery = "" <;>
  by_cases hc : fs.selectedCategories = [] <;>
    simp [hq, hc, List.length_pos, List.mem_filter, and_assoc]
  · tauto
  · tauto
  · tauto
  · tauto

/-- The whole pipeline, as a single predicate: an event is visible iff
every active dimension accepts it. -/
def visiblePred (fs : FilterState) (e : Event) : Bool :=
  (fs.searchQuery == "" || searchPass fs.searchQuery e) &&
  (fs.selectedCategories.isEmpty || categoryPass fs.selectedCategories e) &&
  costPass fs.costRange.1 fs.costRange.2 e &&
  durationPass fs.durationRange.1 fs.durationRange.2 e

/-- The engine is one `List.filter` over the conjunction of its four
predicates: the staged pipeline and the single-pass filter agree. -/
theorem filterEvents_eq_filter (l : List Event) (fs : FilterState) :
    filterEvents l fs = l.filter (visiblePred fs) := by
  have h1 : (if fs.searchQuery = "" then l else l.filter (searchPass fs.searchQuery))
      = l.filter (fun e => fs.searchQuery == "" || searchPass fs.searchQuery e) := by
    by_cases hq : fs.searchQuery = ""
    · simp [hq]
    · simp [hq, beq_eq_false_iff_ne.mpr hq]
  have h2 : ∀ (m : List Event),
      (if fs.selectedCategories.length > 0
        then m.filter (categoryPass fs.selectedCategories) else m)
      = m.filter
          (fun e => fs.selectedCategories.isEmpty || categoryPass fs.selectedCategories e) := by
    intro m
    by_cases hc : fs.selectedCategories = []
    · simp [hc]
    · have hie : fs.selectedCategories.isEmpty = false := by simp [List.isEmpty_iff, hc]
      simp [List.length_pos.mpr hc, hie]
  simp only [filterEvents]
  rw [h1, h2, List.filter_filter, List.filter_filter, List.filter_filter]
  refine List.filter_congr fun a _ => ?_
  simp [visiblePred, Bool.and_assoc, Bool.and_comm, Bool.and_left_comm]

/-- A fixed event record used to build concrete test fixtures. -/
def baseEvent : Event :=
  { id := "e0", name := "Event", category := "Team Building",
    description := "A team outing", city := "chicago",
    idealGroupSize := "4-8", durationHours := some 1, costPerPerson := some 10,
    meetingPoint := "The Loop", transitTips := none, bookingLink := none,
    bestMonths := "All year", accessibilityNotes := none, imageUrl := "img" }

/-- First event of Example 1: cost 10, duration 2, category Food. -/
def example1Event1 : Event :=
  { baseEvent with
    id := "e1"
    name := "Pizza Crawl"
    category := "Food"
    description := "Deep dish tasting walk"
    costPerPerson := some 10
    durationHours := some 2 }

/-- Second event of Example 1: cost 90, duration 1, category Sports. -/
def example1Event2 : Event :=
  { baseEvent with
    id := "e2"
    name := "Ball Game"
    category := "Sports"
    description := "Afternoon at the ballpark"
    costPerPerson := some 90
    durationHours := some 1 }

/-- The two-event catalog of Example 1. -/
def example1Catalog : List Event := [example1Event1, example1Event2]

/-- The filter state of Example 1: defaults except `costRange = [0, 50]`. -/
def example1FS : FilterState :=
  { searchQuery := "", selectedCategories := [],
    costRange := (0, 50), durationRange := (0, 5) }

/-- Event of Example 2: its description contains the word Kayaking. -/
def kayakEvent : Event :=
  { baseEvent with
    id := "e3"
    name := "River Adventure"
    category := "Outdoor/Tour"
    description := "Kayaking on the Chicago River"
    costPerPerson := some 45
    durationHours := some 2 }

/-- C1: an event is kept by the cost filter exactly when
`costRange.min ≤ costPerPerson ≤ costRange.max` and by the duration
filter exactly when `durationRange.min ≤ durationHours ≤
durationRange.max`, all bounds inclusive; on Example 1's two-event
catalog with `costRange = [0, 50]` the engine returns only the first
event. -/
theorem cost_and_duration_filters_inclusive :
    (∀ (l : List Event) (lo hi : ℚ) (e : Event) (c : ℚ),
        e.costPerPerson = some c →
        (e ∈ l.filter (costPass lo hi) ↔ e ∈ l ∧ lo ≤ c ∧ c ≤ hi)) ∧
    (∀ (l : List Event) (lo hi : ℚ) (e : Event) (d : ℚ),
        e.durationHours = some d →
        (e ∈ l.filter (durationPass lo hi) ↔ e ∈ l ∧ lo ≤ d ∧ d ≤ hi)) ∧
    filterEvents example1Catalog example1FS = [example1Event1] := by
  refine ⟨?_, ?_, ?_⟩
  · intro l lo hi e c hc
    simp [List.mem_filter, costPass, numGe, numLe, hc, and_assoc]
  · intro l lo hi e d hd
    simp [List.mem_filter, durationPass, numGe, numLe, hd, and_assoc]
  · decide

/-- Witness for C1 at a concrete input: the first Example 1 event has
cost 10, and the cost filter with bounds `[0, 50]` keeps it. -/
theorem cost_and_duration_filters_inclusive_witness :
    example1Event1 ∈ [example1Event1].filter (costPass 0 50) ↔
      example1Event1 ∈ [example1Event1] ∧ (0 : ℚ) ≤ 10 ∧ (10 : ℚ) ≤ 50 :=
  cost_and_duration_filters_inclusive.1 [example1Event1] 0 50 example1Event1 10 rfl

/-- C4: the visible set is a sublist (subsequence) of the catalog —
every visible event occurs in the catalog, with no higher multiplicity,
in the catalog's original relative order. -/
theorem filterEvents_sublist (events : List Event) (fs : FilterState) :
    (filterEvents events fs).Sublist events := by
  rw [filterEvents_eq_filter]
  exact List.filter_sublist events

/-- Modelled from the spec's words, for comparison: the same pipeline
with the text-filter stage removed entirely. -/
def filterEventsNoSearch (events : List Event) (fs : FilterState) : List Event :=
  let f2 := if fs.selectedCategories.length > 0 then
              events.filter (categoryPass fs.selectedCategories)
            else events
  let f3 := f2.filter (costPass fs.costRange.1 fs.costRange.2)
  f3.filter (durationPass fs.durationRange.1 fs.durationRange.2)

/-- Modelled from the spec's words, for comparison: the same pipeline
with the category-filter stage removed entirely. -/
def filterEventsNoCategory (events : List Event) (fs : FilterState) : List Event :=
  let f1 := if fs.searchQuery = "" then events
            else events.filter (searchPass fs.searchQuery)
  let f3 := f1.filter (costPass fs.costRange.1 fs.costRange.2)
  f3.filter (durationPass fs.durationRange.1 fs.durationRange.2)

/-- Membership in the pipeline without the text stage. -/
theorem mem_filterEventsNoSearch {events : List Event} {fs : FilterState} {e : Event} :
    e ∈ filterEventsNoSearch events fs ↔
      e ∈ events ∧
      (fs.selectedCategories = [] ∨ categoryPass fs.selectedCategories e = true) ∧
      costPass fs.costRange.1 fs.costRange.2 e = true ∧
      durationPass fs.durationRange.1 fs.durationRange.2 e = true := by
  unfold filterEventsNoSearch
  by_cases hc : fs.selectedCategories = [] <;>
    simp [hc, List.length_pos, List.mem_filter, and_assoc]
  all_goals tauto

/-- Membership in the pipeline without the category stage. -/
theorem mem_filterEventsNoCategory {events : List Event} {fs : FilterState} {e : Event} :
    e ∈ filterEventsNoCategory events fs ↔
      e ∈ events ∧
      (fs.searchQuery = "" ∨ searchPass fs.searchQuery e = true) ∧
      costPass fs.costRange.1 fs.costRange.2 e = true ∧
      durationPass fs.durationRange.1 fs.durationRange.2 e = true := by
  unfold filterEventsNoCategory
  by_cases hq : fs.searchQuery = "" <;>
    simp [hq, List.mem_filter, and_assoc]
  all_goals tauto

/-- C2: with a non-empty query the engine keeps, among the events the
other dimensions admit, exactly those whose name, description, or
category contains the query as a case-insensitive substring; with an
empty query the text stage imposes no restriction (the engine equals
the pipeline without it); and the query kayak matches an event whose
description contains Kayaking. -/
theorem search_filter_spec :
    (∀ (events : List Event) (fs : FilterState) (e : Event),
        fs.searchQuery ≠ "" →
        (e ∈ filterEvents events fs ↔
          e ∈ filterEventsNoSearch events fs ∧
          (jsIncludes (jsToLower e.name) (jsToLower fs.searchQuery) = true ∨
           jsIncludes (jsToLower e.description) (jsToLower fs.searchQuery) = true ∨
           jsIncludes (jsToLower e.category) (jsToLower fs.searchQuery) = true))) ∧
    (∀ (events : List Event) (fs : FilterState),
        fs.searchQuery = "" → filterEvents events fs = filterEventsNoSearch events fs) ∧
    searchPass "kayak" kayakEvent = true := by
  refine ⟨?_, ?_, ?_⟩
  · intro events fs e hq
    rw [mem_filterEvents, mem_filterEventsNoSearch]
    simp only [hq, false_or, searchPass, Bool.or_eq_true]
    tauto
  · intro events fs hq
    simp [filterEvents, filterEventsNoSearch, hq]
  · decide

/-- Witness for C2 at a concrete input: with query kayak, the kayak
event is visible among a one-event catalog iff it survives the other
stages and one of its text fields contains kayak case-insensitively. -/
theorem search_filter_spec_witness :
    kayakEvent ∈ filterEvents [kayakEvent]
        { example1FS with searchQuery := "kayak" } ↔
      kayakEvent ∈ filterEventsNoSearch [kayakEvent]
          { example1FS with searchQuery := "kayak" } ∧
      (jsIncludes (jsToLower kayakEvent.name) (jsToLower "kayak") = true ∨
       jsIncludes (jsToLower kayakEvent.description) (jsToLower "kayak") = true ∨
       jsIncludes (jsToLower kayakEvent.category) (jsToLower "kayak") = true) :=
  search_filter_spec.1 [kayakEvent] { example1FS with searchQuery := "kayak" }
    kayakEvent (by decide)

/-- C3: with a non-empty selection the engine keeps, among the events
the other dimensions admit, exactly those whose category is a member of
`selectedCategories`; with an empty selection the result equals the
pipeline with no category stage at all. -/
theorem category_filter_spec :
    (∀ (events : List Event) (fs : FilterState),
        fs.selectedCategories = [] →
        filterEvents events fs = filterEventsNoCategory events fs) ∧
    (∀ (events : List Event) (fs : FilterState) (e : Event),
        fs.selectedCategories ≠ [] →
        (e ∈ filterEvents events fs ↔
          e ∈ filterEventsNoCategory events fs ∧
          e.category ∈ fs.selectedCategories)) := by
  constructor
  · intro events fs hc
    simp [filterEvents, filterEventsNoCategory, hc]
  · intro events fs e hc
    rw [mem_filterEvents, mem_filterEventsNoCategory]
    simp only [hc, false_or, categoryPass, List.contains, List.elem_iff]
    tauto

/-- Witness for C3 at a concrete input: with only Food selected, the
Food event of Example 1 is visible iff it passes the other stages and
its category is selected. -/
theorem category_filter_spec_witness :
    example1Event1 ∈ filterEvents example1Catalog
        { example1FS with selectedCategories := ["Food"] } ↔
      example1Event1 ∈ filterEventsNoCategory example1Catalog
          { example1FS with selectedCategories := ["Food"] } ∧
      example1Event1.category ∈ ["Food"] :=
  category_filter_spec.2 example1Catalog
    { example1FS with selectedCategories := ["Food"] } example1Event1 (by decide)

/-- Helper: the JavaScript `>=` test is antitone in its bound. -/
theorem numGe_mono {x : Option ℚ} {a b : ℚ} (h : numGe x b = true) (hab : a ≤ b) :
    numGe x a = true := by
  cases x with
  | none => exact absurd h (by simp [numGe])
  | some q => simp only [numGe, decide_eq_true_eq] at h ⊢; exact hab.trans h

/-- Helper: the JavaScript `<=` test is monotone in its bound. -/
theorem numLe_mono {x : Option ℚ} {b c : ℚ} (h : numLe x b = true) (hbc : b ≤ c) :
    numLe x c = true := by
  cases x with
  | none => exact absurd h (by simp [numLe])
  | some q => simp only [numLe, decide_eq_true_eq] at h ⊢; exact h.trans hbc

/-- C5: widening any single range bound — lowering `costRange.min`,
raising `costRange.max`, lowering `durationRange.min`, or raising
`durationRange.max` — while the query, the category selection, and the
other three bounds stay fixed, never loses a visible event. -/
theorem widening_monotone (events : List Event) (fs : FilterState) (e : Event)
    (he : e ∈ filterEvents events fs) :
    (∀ lo, lo ≤ fs.costRange.1 →
        e ∈ filterEvents events { fs with costRange := (lo, fs.costRange.2) }) ∧
    (∀ hi, fs.costRange.2 ≤ hi →
        e ∈ filterEvents events { fs with costRange := (fs.costRange.1, hi) }) ∧
    (∀ lo, lo ≤ fs.durationRange.1 →
        e ∈ filterEvents events { fs with durationRange := (lo, fs.durationRange.2) }) ∧
    (∀ hi, fs.durationRange.2 ≤ hi →
        e ∈ filterEvents events { fs with durationRange := (fs.durationRange.1, hi) }) := by
  rw [mem_filterEvents] at he
  obtain ⟨hmem, hs, hc, hcost, hdur⟩ := he
  simp only [costPass, durationPass, Bool.and_eq_true] at hcost hdur
  refine ⟨?_, ?_, ?_, ?_⟩ <;> intro b hb <;> rw [mem_filterEvents] <;>
    refine ⟨hmem, hs, hc, ?_, ?_⟩
  all_goals simp only [costPass, durationPass, Bool.and_eq_true]
  all_goals first
    | exact ⟨numGe_mono hcost.1 hb, hcost.2⟩
    | exact ⟨hcost.1, numLe_mono hcost.2 hb⟩
    | exact ⟨numGe_mono hdur.1 hb, hdur.2⟩
    | exact ⟨hdur.1, numLe_mono hdur.2 hb⟩
    | exact hcost
    | exact hdur

/-- Witness for C5 at a concrete input: the Example 1 result survives
raising the cost ceiling from 50 to 100. -/
theorem widening_monotone_witness :
    example1Event1 ∈ filterEvents example1Catalog
      { example1FS with costRange := (example1FS.costRange.1, 100) } :=
  (widening_monotone example1Catalog example1FS example1Event1 (by decide)).2.1
    100 (by decide)

/-- Event with a malformed cost: `Number(...)` on its stored cost
yields `NaN`. -/
def malformedEvent : Event :=
  { baseEvent with
    id := "m1"
    name := "Broken Record"
    costPerPerson := none }

/-- Event whose cost is numeric but far above every default range. -/
def outOfRangeEvent : Event :=
  { baseEvent with
    id := "m2"
    name := "Too Expensive"
    costPerPerson := some 999 }

/-- C6 counterexample: the engine excludes the malformed event but its
output — a bare event list, the engine's only channel — is identical to
the output for a legitimately out-of-range event, so no data-quality
error is signalled and nothing distinguishes the two cases; the rest of
the catalog is still processed. -/
theorem malformed_silently_dropped_cex :
    filterEvents [example1Event1, malformedEvent] example1FS = [example1Event1] ∧
    filterEvents [malformedEvent] example1FS = filterEvents [outOfRangeEvent] example1FS ∧
    filterEvents [malformedEvent] example1FS = [] := by
  refine ⟨by decide, by decide, by decide⟩

/-- C6 amended: an event whose cost or duration coerces to `NaN` is
excluded from the visible set — the `NaN` fails both range comparisons
— silently and indistinguishably from an out-of-range event, with no
error signalled, and the rest of the catalog is still processed. -/
theorem malformed_excluded_silently (pre post : List Event) (fs : FilterState) (e : Event)
    (he : e.costPerPerson = none ∨ e.durationHours = none) :
    filterEvents (pre ++ e :: post) fs = filterEvents (pre ++ post) fs := by
  have hv : visiblePred fs e = false := by
    rcases he with h | h <;>
      simp [visiblePred, costPass, durationPass, numGe, numLe, h]
  rw [filterEvents_eq_filter, filterEvents_eq_filter]
  simp [List.filter_append, List.filter_cons, hv]

/-- Witness for C6's amended claim at a concrete input: dropping the
malformed event from the catalog leaves the engine's output unchanged. -/
theorem malformed_excluded_silently_witness :
    filterEvents ([example1Event1] ++ malformedEvent :: []) example1FS =
      filterEvents ([example1Event1] ++ []) example1FS :=
  malformed_excluded_silently [example1Event1] [] example1FS malformedEvent (Or.inl rfl)

/-- A persisted favorite record (`blink.db.favorites`): the store's
primary key `id`, plus the `userId`, `eventId`, `createdAt` fields that
`toggleFavorite` writes. -/
structure FavRecord where
  id : String
  userId : String
  eventId : String
  createdAt : Nat
deriving DecidableEq

/-- One write issued against the persistence collaborator. -/
inductive DbWrite where
  | create (r : FavRecord)
  | delete (id : String)
deriving DecidableEq

/-- The favorites-related state: the in-memory `favorites` set (a JS
`Set` in insertion order) and the persisted favorites collection. -/
structure FavoritesModel where
  favorites : List String
  db : List FavRecord
deriving DecidableEq

/-- `toggleFavorite` (`App.tsx` lines 174–203).  With no user it
returns at once.  If the event is in the set, it lists the records
matching `(userId, eventId)`, deletes the first one's id when any
exist, and removes the event from the set; otherwise it creates a
record (`freshId` is the id the store assigns, `now` the timestamp)
and appends the event to the set.  The second component collects the
persistence writes the call issues. -/
def toggleFavorite (user : Option String) (eventId freshId : String) (now : Nat)
    (s : FavoritesModel) : FavoritesModel × List DbWrite :=
  match user with
  | none => (s, [])
  | some uid =>
    if s.favorites.contains eventId then
      match s.db.filter (fun r => r.userId == uid && r.eventId == eventId) with
      | [] => ({ favorites := s.favorites.erase eventId, db := s.db }, [])
      | r :: _ =>
        ({ favorites := s.favorites.erase eventId,
           db := s.db.eraseP (fun q => q.id == r.id) },
         [DbWrite.delete r.id])
    else
      ({ favorites := s.favorites ++ [eventId],
         db := s.db ++ [⟨freshId, uid, eventId, now⟩] },
       [DbWrite.create ⟨freshId, uid, eventId, now⟩])

/-- Helper: boolean `contains` agrees with propositional membership. -/
theorem contains_eq_true_iff {l : List String} {a : String} :
    l.contains a = true ↔ a ∈ l := by
  simp [List.contains, List.elem_iff]

/-- Helper: `contains` is false exactly on non-members. -/
theorem contains_eq_false_iff {l : List String} {a : String} :
    l.contains a = false ↔ a ∉ l := by
  constructor
  · intro h hmem
    have h2 := contains_eq_true_iff.mpr hmem
    rw [h] at h2
    exact Bool.false_ne_true h2
  · intro h
    cases hc : l.contains a
    · rfl
    · exact absurd (contains_eq_true_iff.mp hc) h

/-- C7: for a signed-in user whose favorites set mirrors the persisted
records for the toggled event (and a store that hands out fresh record
ids), one toggle flips the event's membership in the set and issues
exactly one persistence write — a delete when the event was present, a
create when it was absent — and two successive toggles restore the
original membership and persisted record count (for an initially
absent event they restore the state exactly). -/
theorem toggleFavorite_spec (uid eventId freshId freshId2 : String) (now now2 : Nat)
    (s : FavoritesModel)
    (hnd : s.favorites.Nodup)
    (hinv : eventId ∈ s.favorites ↔ ∃ r ∈ s.db, r.userId = uid ∧ r.eventId = eventId)
    (hfresh : ∀ r ∈ s.db, r.id ≠ freshId) :
    ((toggleFavorite (some uid) eventId freshId now s).1.favorites.contains eventId
        = !(s.favorites.contains eventId)) ∧
    (toggleFavorite (some uid) eventId freshId now s).2.length = 1 ∧
    (eventId ∈ s.favorites →
      ∃ i, (toggleFavorite (some uid) eventId freshId now s).2 = [DbWrite.delete i]) ∧
    (eventId ∉ s.favorites →
      (toggleFavorite (some uid) eventId freshId now s).2
        = [DbWrite.create ⟨freshId, uid, eventId, now⟩]) ∧
    (eventId ∉ s.favorites →
      (toggleFavorite (some uid) eventId freshId2 now2
          (toggleFavorite (some uid) eventId freshId now s).1).1 = s) ∧
    (eventId ∈ s.favorites →
      eventId ∈ (toggleFavorite (some uid) eventId freshId2 now2
          (toggleFavorite (some uid) eventId freshId now s).1).1.favorites ∧
      (toggleFavorite (some uid) eventId freshId2 now2
          (toggleFavorite (some uid) eventId freshId now s).1).1.db.length
        = s.db.length) := by
  by_cases hmem : eventId ∈ s.favorites
  · have hb : s.favorites.contains eventId = true := contains_eq_true_iff.mpr hmem
    obtain ⟨r0, hr0, hu0, he0⟩ := hinv.mp hmem
    have hr0f : r0 ∈ s.db.filter (fun r => r.userId == uid && r.eventId == eventId) :=
      List.mem_filter.mpr ⟨hr0, by simp [hu0, he0]⟩
    rcases hfl : s.db.filter (fun r => r.userId == uid && r.eventId == eventId)
      with _ | ⟨r, rest⟩
    · rw [hfl] at hr0f
      cases hr0f
    · have hr : r ∈ s.db := (List.mem_filter.mp (hfl ▸ List.mem_cons_self r rest)).1
      have ht1 : toggleFavorite (some uid) eventId freshId now s
          = (⟨s.favorites.erase eventId, s.db.eraseP (fun q => q.id == r.id)⟩,
             [DbWrite.delete r.id]) := by
        simp [toggleFavorite, hfl, hmem]
      have hner : eventId ∉ s.favorites.erase eventId := hnd.not_mem_erase
      have hb2 : (s.favorites.erase eventId).contains eventId = false :=
        contains_eq_false_iff.mpr hner
      refine ⟨?_, ?_, ?_, ?_, ?_, ?_⟩
      · rw [ht1, hb]
        simpa using hb2
      · simp [ht1]
      · intro _
        exact ⟨r.id, by simp [ht1]⟩
      · intro h
        exact absurd hmem h
      · intro h
        exact absurd hmem h
      · intro _
        have ht2 : toggleFavorite (some uid) eventId freshId2 now2
            (⟨s.favorites.erase eventId,
              s.db.eraseP (fun q => q.id == r.id)⟩ : FavoritesModel)
            = (⟨s.favorites.erase eventId ++ [eventId],
                s.db.eraseP (fun q => q.id == r.id)
                  ++ [⟨freshId2, uid, eventId, now2⟩]⟩,
               [DbWrite.create ⟨freshId2, uid, eventId, now2⟩]) := by
          simp [toggleFavorite, hner]
        simp only [ht1]
        rw [ht2]
        have hlen : (s.db.eraseP (fun q => q.id == r.id)).length = s.db.length - 1 :=
          List.length_eraseP_of_mem hr (by simp)
        have hpos : 0 < s.db.length := List.length_pos.mpr (List.ne_nil_of_mem hr)
        constructor
        · simp
        · simp only [List.length_append, hlen, List.length_cons, List.length_nil]
          omega
  · have hb : s.favorites.contains eventId = false := contains_eq_false_iff.mpr hmem
    have ht1 : toggleFavorite (some uid) eventId freshId now s
        = (⟨s.favorites ++ [eventId], s.db ++ [⟨freshId, uid, eventId, now⟩]⟩,
           [DbWrite.create ⟨freshId, uid, eventId, now⟩]) := by
      simp [toggleFavorite, hmem]
    have hnof : s.db.filter (fun r => r.userId == uid && r.eventId == eventId) = [] := by
      rw [List.filter_eq_nil_iff]
      intro a ha hpa
      simp only [Bool.and_eq_true, beq_iff_eq] at hpa
      exact hmem (hinv.mpr ⟨a, ha, hpa.1, hpa.2⟩)
    have hb2 : (s.favorites ++ [eventId]).contains eventId = true :=
      contains_eq_true_iff.mpr (by simp)
    have ht2 : toggleFavorite (some uid) eventId freshId2 now2
        (⟨s.favorites ++ [eventId],
          s.db ++ [(⟨freshId, uid, eventId, now⟩ : FavRecord)]⟩ : FavoritesModel)
        = (⟨(s.favorites ++ [eventId]).erase eventId,
            (s.db ++ [(⟨freshId, uid, eventId, now⟩ : FavRecord)]).eraseP
              (fun q => q.id == freshId)⟩,
           [DbWrite.delete freshId]) := by
      simp [toggleFavorite, hnof]
    have herase : (s.favorites ++ [eventId]).erase eventId = s.favorites := by
      rw [List.erase_append_right _ hmem]
      simp
    have hdb : (s.db ++ [(⟨freshId, uid, eventId, now⟩ : FavRecord)]).eraseP
        (fun q => q.id == freshId) = s.db := by
      rw [List.eraseP_append_right _ (fun b hbm => by simp [hfresh b hbm])]
      simp
    refine ⟨?_, ?_, ?_, ?_, ?_, ?_⟩
    · rw [ht1, hb]
      simp
    · simp [ht1]
    · intro h
      exact absurd h hmem
    · intro _
      simp [ht1]
    · intro _
      simp only [ht1]
      rw [ht2]
      show (⟨(s.favorites ++ [eventId]).erase eventId,
        (s.db ++ [(⟨freshId, uid, eventId, now⟩ : FavRecord)]).eraseP
          (fun q => q.id == freshId)⟩ : FavoritesModel) = s
      rw [herase, hdb]
    · intro h
      exact absurd h hmem

/-- Witness for C7 at a concrete input: starting from the empty state,
toggling issues exactly one create, and toggling twice restores the
empty state. -/
theorem toggleFavorite_spec_witness :
    (toggleFavorite (some "u") "e" "f" 0 ⟨[], []⟩).2
        = [DbWrite.create ⟨"f", "u", "e", 0⟩] ∧
    (toggleFavorite (some "u") "e" "g" 1
        (toggleFavorite (some "u") "e" "f" 0 ⟨[], []⟩).1).1 = ⟨[], []⟩ :=
  ⟨(toggleFavorite_spec "u" "e" "f" "g" 0 1 ⟨[], []⟩ List.nodup_nil
      (by simp) (by simp)).2.2.2.1 (by simp),
   (toggleFavorite_spec "u" "e" "f" "g" 0 1 ⟨[], []⟩ List.nodup_nil
      (by simp) (by simp)).2.2.2.2.1 (by simp)⟩

/-- `surpriseMe` (`App.tsx` lines 205–210), with the random draw made
explicit: `i` stands for `Math.floor(Math.random() * length)`, which
lies in `[0, length)` whenever the list is non-empty.  When
`filteredEvents` is non-empty the drawn event becomes the selection;
otherwise nothing runs and the current selection stays. -/
def surpriseMe (filteredEvents : List Event) (selectedEvent : Option Event)
    (i : Nat) : Option Event :=
  if filteredEvents.length > 0 then filteredEvents[i]? else selectedEvent

/-- C8: with a valid draw over a non-empty visible set, `surpriseMe`
selects some member of that set; on an empty visible set it is a no-op
that leaves the current selection exactly as it was. -/
theorem surpriseMe_spec :
    (∀ (l : List Event) (sel : Option Event) (i : Nat),
        i < l.length → ∃ e, surpriseMe l sel i = some e ∧ e ∈ l) ∧
    (∀ (sel : Option Event) (i : Nat), surpriseMe [] sel i = sel) := by
  constructor
  · intro l sel i hi
    refine ⟨l.get ⟨i, hi⟩, ?_, l.get_mem i hi⟩
    have hpos : l.length > 0 := Nat.lt_of_le_of_lt (Nat.zero_le i) hi
    simp [surpriseMe, hpos, List.getElem?_eq_getElem hi]
  · intro sel i
    simp [surpriseMe]

/-- Witness for C8 at a concrete input: drawing index 0 over the
one-event visible set yields a member of it. -/
theorem surpriseMe_spec_witness :
    ∃ e, surpriseMe [example1Event1] none 0 = some e ∧ e ∈ [example1Event1] :=
  surpriseMe_spec.1 [example1Event1] none 0 (by decide)

/-- `loadFavorites` (`App.tsx` lines 109–119), with the persistence
collaborator made explicit: with no signed-in user the function returns
at once, leaving the favorites state untouched; with a user it replaces
the state by the set of `eventId`s of the user's records (a JS `Set`
keeps first occurrences). -/
def loadFavorites (user : Option String) (db : List FavRecord)
    (favorites : List String) : List String :=
  match user with
  | none => favorites
  | some uid => ((db.filter (fun r => r.userId == uid)).map
      (fun r => r.eventId)).eraseDups

/-- C9 counterexample: loading favorites with no signed-in user, while
the state still holds a previously loaded set, keeps that previous
non-empty set rather than producing the empty set. -/
theorem loadFavorites_no_user_cex :
    loadFavorites none [] ["e1"] = ["e1"] ∧ ("e1" :: []) ≠ ([] : List String) :=
  ⟨rfl, by decide⟩

/-- C9 amended: loading the favorites store with no signed-in user is a
no-op — the favorites set keeps exactly its previous value (no error);
it is the empty set only when it was already empty, as it is at session
start. -/
theorem loadFavorites_no_user_noop (db : List FavRecord) (favorites : List String) :
    loadFavorites none db favorites = favorites := rfl

/-- The catalog-related state of the app: the currently selected city
and the loaded events. -/
structure CatalogState where
  selectedCity : String
  events : List Event
deriving DecidableEq

/-- One observable step of the catalog logic.  `selectCity` is the
city-selector click (`setSelectedCity`, `App.tsx` lines 308 and 316);
`loadCompletes` is the continuation of `loadEvents` after its `await`
(`App.tsx` lines 85–103): `setEvents(formattedEvents)` runs
unconditionally — the handler carries the city the request was made
for, but never compares it against the current selection. -/
inductive AppAction where
  | selectCity (c : String)
  | loadCompletes (requestedCity : String) (result : List Event)

/-- State transition applied per action, in completion order. -/
def stepApp (s : CatalogState) (a : AppAction) : CatalogState :=
  match a with
  | .selectCity c => { s with selectedCity := c }
  | .loadCompletes _ result => { s with events := result }

/-- A second city's catalog, distinct from Example 1's Chicago list. -/
def minneapolisEvent : Event :=
  { baseEvent with
    id := "e9"
    name := "Mill City Tour"
    city := "minneapolis" }

/-- C10 failing trace: the user selects minneapolis, its load completes,
and then the stale chicago load completes late; the final state pairs
`selectedCity = minneapolis` with chicago's catalog, because the code
applies load results in completion order with no staleness guard. -/
theorem stale_load_overwrites :
    ([AppAction.selectCity "minneapolis",
      AppAction.loadCompletes "minneapolis" [minneapolisEvent],
      AppAction.loadCompletes "chicago" example1Catalog].foldl stepApp
        ⟨"chicago", []⟩).selectedCity = "minneapolis" ∧
    ([AppAction.selectCity "minneapolis",
      AppAction.loadCompletes "minneapolis" [minneapolisEvent],
      AppAction.loadCompletes "chicago" example1Catalog].foldl stepApp
        ⟨"chicago", []⟩).events = example1Catalog ∧
    example1Catalog ≠ [minneapolisEvent] :=
  ⟨rfl, rfl, by decide⟩
